import Mathlib

/-!
Shallow embedding of the convex-session-tracker package.

Server side (`src/component/sessions.ts`): a Convex `sessions` table holding
one document per anonymous id, with mutations `trackSession`,
`trackUserAction`, `cleanupOldSessions` (shared handler
`cleanupSessionsHandler`) and the query `getActiveSessions`.  Convex runs
every mutation as one serializable transaction, so each mutation is modelled
as a single atomic state transition on the database value; concurrent
mutations execute in some serial order.

Client side (`src/client/index.tsx`): the `useSessionTracker` hook reads or
creates the anonymous id in `localStorage`, modelled as an association list,
with JavaScript truthiness (`storedId || uuidv4()`) made explicit.

Timestamps (`Date.now()`) are integers (milliseconds since epoch); the
`now` value is passed explicitly.  `metadata` is opaque to the package
(`v.any()`), modelled as an uninterpreted string.  Convex document ids are
modelled as naturals allocated from a counter.
-/

namespace SessionTracker

/-- Opaque action metadata (`v.optional(v.any())`); never inspected by the
package, modelled as an uninterpreted string. -/
abbrev Metadata := String

/-- One entry of a session's `actions` array (schema in
`src/component/schema.ts`). -/
structure Action where
  action : String
  timestamp : Int
  resourceId : Option String
  metadata : Option Metadata
deriving Repr, DecidableEq

/-- One document of the `sessions` table.  `id` is the Convex `_id`. -/
structure Session where
  id : Nat
  anonymousId : String
  createdAt : Int
  lastActive : Int
  actions : List Action
deriving Repr, DecidableEq

/-- The state of the `sessions` table: the stored documents plus the
allocator for fresh document ids. -/
structure DB where
  sessions : List Session
  nextId : Nat
deriving Repr, DecidableEq

/-- `ctx.db.query('sessions').withIndex('by_anonymous_id', q.eq(...)).first()`. -/
def findByAnonymousId (db : DB) (aid : String) : Option Session :=
  db.sessions.find? (fun s => s.anonymousId == aid)

/-- `ctx.db.patch(i, { lastActive: now })`. -/
def patchLastActive (l : List Session) (i : Nat) (now : Int) : List Session :=
  l.map (fun s => if s.id == i then { s with lastActive := now } else s)

/-- The `trackSession` mutation: look up the session for `anonymousId`;
if found, patch `lastActive` and return the existing `_id`; otherwise
insert a new document with `createdAt = lastActive = now` and empty
`actions` and return the fresh `_id`. -/
def trackSession (db : DB) (aid : String) (now : Int) : DB × Nat :=
  match findByAnonymousId db aid with
  | some existing =>
      ({ db with sessions := patchLastActive db.sessions existing.id now }, existing.id)
  | none =>
      ({ sessions := db.sessions ++
           [{ id := db.nextId, anonymousId := aid, createdAt := now,
              lastActive := now, actions := [] }],
         nextId := db.nextId + 1 }, db.nextId)

/-- `ctx.db.patch(i, { lastActive: now, actions: [...session.actions, entry] })`. -/
def patchAppendAction (l : List Session) (i : Nat) (entry : Action) (now : Int) :
    List Session :=
  l.map (fun s =>
    if s.id == i then { s with lastActive := now, actions := s.actions ++ [entry] }
    else s)

/-- The `trackUserAction` mutation: look up the session for `anonymousId`;
throw `Session not found` if absent; otherwise patch `lastActive` and append
the new action entry. -/
def trackUserAction (db : DB) (aid act : String) (rid : Option String)
    (md : Option Metadata) (now : Int) : Except String DB :=
  match findByAnonymousId db aid with
  | none => Except.error "Session not found"
  | some session =>
      let entry : Action :=
        { action := act, timestamp := now, resourceId := rid, metadata := md }
      Except.ok { db with sessions := patchAppendAction db.sessions session.id entry now }

/-- The action entry built by `trackUserAction`:
`{ action, timestamp: now, resourceId, metadata }`. -/
def mkAction (act : String) (rid : Option String) (md : Option Metadata)
    (now : Int) : Action :=
  { action := act, timestamp := now, resourceId := rid, metadata := md }

/-- A session as patched by a successful `trackUserAction`: `lastActive`
bumped to `now` and the new entry appended after all existing entries. -/
def appendedSession (s : Session) (act : String) (rid : Option String)
    (md : Option Metadata) (now : Int) : Session :=
  { s with lastActive := now, actions := s.actions ++ [mkAction act rid md now] }

/-- Transactional effect of `trackUserAction`: a Convex mutation that throws
is rolled back, so on error the table state is unchanged. -/
def trackUserActionState (db : DB) (aid act : String) (rid : Option String)
    (md : Option Metadata) (now : Int) : DB :=
  match trackUserAction db aid act rid md now with
  | Except.error _ => db
  | Except.ok db2 => db2

/-- The `getActiveSessions` query: `minutesActive` defaults to `15`;
`cutoff = Date.now() - minutesActive * 60 * 1000`; the filter is
`q.gt(q.field('lastActive'), cutoff)`, i.e. strictly greater. -/
def getActiveSessions (db : DB) (minutesActive : Option Int) (now : Int) :
    List Session :=
  let m := minutesActive.getD 15
  let cutoff := now - m * 60 * 1000
  db.sessions.filter (fun s => cutoff < s.lastActive)

/-- The value returned by `cleanupSessionsHandler`: the object literal
`{ deletedCount, oldestDate: cutoff }`. -/
structure CleanupResult where
  deletedCount : Nat
  oldestDate : Int
deriving Repr, DecidableEq

/-- As a JavaScript object, the cleanup result is a map from key names to
numbers; these are exactly the keys the source's object literal carries. -/
def cleanupResultObj (r : CleanupResult) : List (String × Int) :=
  [("deletedCount", (r.deletedCount : Int)), ("oldestDate", r.oldestDate)]

/-- `ctx.db.delete(i)`: remove the document with id `i`. -/
def deleteSession (l : List Session) (i : Nat) : List Session :=
  l.filter (fun t => t.id != i)

/-- `cleanupSessionsHandler`: `daysInactive` defaults to `30`;
`cutoff = Date.now() - daysInactive * 24 * 60 * 60 * 1000`; collect the
sessions with `lastActive < cutoff` (`q.lt`), delete each one in a loop
counting the deletions, and return `{ deletedCount, oldestDate: cutoff }`.
The public `cleanupOldSessions` mutation and the internal cron mutation both
run exactly this handler. -/
def cleanupSessionsHandler (db : DB) (daysInactive : Option Int) (now : Int) :
    DB × CleanupResult :=
  let d := daysInactive.getD 30
  let cutoff := now - d * 24 * 60 * 60 * 1000
  let oldSessions := db.sessions.filter (fun s => s.lastActive < cutoff)
  let remaining := oldSessions.foldl (fun acc s => deleteSession acc s.id) db.sessions
  ({ db with sessions := remaining },
   { deletedCount := oldSessions.length, oldestDate := cutoff })

/-- Number of stored sessions carrying a given `anonymousId`. -/
def countFor (db : DB) (aid : String) : Nat :=
  (db.sessions.filter (fun s => s.anonymousId == aid)).length

/-- Well-formedness of the table state: document ids are pairwise distinct
and below the allocator counter.  Holds for the empty table and is preserved
by every mutation. -/
def DB.WF (db : DB) : Prop :=
  (db.sessions.map (fun s => s.id)).Nodup ∧ ∀ s ∈ db.sessions, s.id < db.nextId

/-- The server operations a client can drive, for trace-based invariants. -/
inductive Op where
  | upsert (aid : String) : Op
  | append (aid act : String) (rid : Option String) (md : Option Metadata) : Op
deriving Repr, DecidableEq

/-- One mutation executed at time `t` (each mutation reads `Date.now()`
once, at its start). -/
def stepOp (db : DB) (op : Op) (t : Int) : DB :=
  match op with
  | Op.upsert aid => (trackSession db aid t).1
  | Op.append aid act rid md => trackUserActionState db aid act rid md t

/-- Run a sequence of timestamped mutations. -/
def runTrace (db : DB) (tr : List (Op × Int)) : DB :=
  tr.foldl (fun d p => stepOp d p.1 p.2) db

/-- The times of a trace are non-decreasing and bounded below by `t0`. -/
def timesOK : Int → List (Op × Int) → Prop
  | _, [] => True
  | t0, p :: rest => t0 ≤ p.2 ∧ timesOK p.2 rest

/-- Every stored session satisfies `createdAt ≤ lastActive ≤ t`. -/
def Bounded (db : DB) (t : Int) : Prop :=
  ∀ s ∈ db.sessions, s.createdAt ≤ s.lastActive ∧ s.lastActive ≤ t

/-- The time of the last entry of a trace (`t0` for the empty trace). -/
def endTime (t0 : Int) (tr : List (Op × Int)) : Int :=
  tr.foldl (fun _ p => p.2) t0

/-- `trackUserActionState` iterated over a list of `(action, time)` calls
(no `resourceId`, no `metadata`). -/
def runActions (db : DB) (aid : String) (calls : List (String × Int)) : DB :=
  calls.foldl (fun d c => trackUserActionState d aid c.1 none none c.2) db

/-- Client execution context for the `useSessionTracker` hook: whether
`typeof window` is defined, and the `localStorage` contents. -/
structure ClientCtx where
  isBrowser : Bool
  storage : List (String × String)
deriving Repr, DecidableEq

/-- `localStorage.getItem(k)`: the stored string, or `none` (JS `null`)
when the key is absent. -/
def getItem (st : List (String × String)) (k : String) : Option String :=
  (st.find? (fun p => p.1 == k)).map (fun p => p.2)

/-- `localStorage.setItem(k, v)`: overwrite the binding for `k`, or append
a new one. -/
def setItem (st : List (String × String)) (k v : String) : List (String × String) :=
  if (st.find? (fun p => p.1 == k)).isSome then
    st.map (fun p => if p.1 == k then (k, v) else p)
  else st ++ [(k, v)]

/-- JavaScript truthiness of `storedId : string | null`: `null` and the
empty string are falsy. -/
def jsTruthy : Option String → Bool
  | none => false
  | some s => !(s == "")

/-- The initial effect of `useSessionTracker` (lines 57-82 of
`src/client/index.tsx`): outside a browser (`typeof window === 'undefined'`)
it returns before touching storage and the hook's state stays `null`;
otherwise `storedId = localStorage.getItem(storageKey)`,
`id = storedId || uuidv4()` (JS truthiness), `if (!storedId)` the id is
persisted, and the hook exposes `id`.  The fresh uuid is passed in as
`fresh`. -/
def useSessionTrackerInit (ctx : ClientCtx) (storageKey : String)
    (fresh : String) : Option String × ClientCtx :=
  if ctx.isBrowser = false then (none, ctx)
  else
    let storedId := getItem ctx.storage storageKey
    let id := match storedId with
      | some s => if s == "" then fresh else s
      | none => fresh
    let st := if jsTruthy storedId then ctx.storage
              else setItem ctx.storage storageKey id
    (some id, { ctx with storage := st })

/-! ### Generic list helpers -/

theorem comp_pres_eq {α : Type} {f : α → α} {p : α → Bool}
    (h : ∀ x, p (f x) = p x) : p ∘ f = p :=
  funext h

theorem find?_map_pres {α : Type} {f : α → α} {p : α → Bool}
    (h : ∀ x, p (f x) = p x) (l : List α) :
    (l.map f).find? p = (l.find? p).map f := by
  rw [List.find?_map, comp_pres_eq h]

theorem filter_map_pres {α : Type} {f : α → α} {p : α → Bool}
    (h : ∀ x, p (f x) = p x) (l : List α) :
    (l.map f).filter p = (l.filter p).map f := by
  rw [List.filter_map, comp_pres_eq h]

/-! ### Lemmas about the patch operations -/

theorem patchLastActive_pres_aid (i : Nat) (now : Int) (aid : String) (x : Session) :
    ((if x.id == i then { x with lastActive := now } else x).anonymousId == aid)
      = (x.anonymousId == aid) := by
  cases h : x.id == i <;> simp [h]

theorem findByAnonymousId_patchLastActive (l : List Session) (i : Nat) (now : Int)
    (aid : String) :
    (patchLastActive l i now).find? (fun s => s.anonymousId == aid)
      = (l.find? (fun s => s.anonymousId == aid)).map
          (fun s => if s.id == i then { s with lastActive := now } else s) :=
  find?_map_pres (fun x => patchLastActive_pres_aid i now aid x) l

theorem patchAppendAction_pres_aid (i : Nat) (e : Action) (now : Int) (aid : String)
    (x : Session) :
    ((if x.id == i then { x with lastActive := now, actions := x.actions ++ [e] }
      else x).anonymousId == aid) = (x.anonymousId == aid) := by
  cases h : x.id == i <;> simp [h]

theorem findByAnonymousId_patchAppendAction (l : List Session) (i : Nat) (e : Action)
    (now : Int) (aid : String) :
    (patchAppendAction l i e now).find? (fun s => s.anonymousId == aid)
      = (l.find? (fun s => s.anonymousId == aid)).map
          (fun s => if s.id == i then { s with lastActive := now, actions := s.actions ++ [e] }
                    else s) :=
  find?_map_pres (fun x => patchAppendAction_pres_aid i e now aid x) l

/-! ### Counting sessions per anonymous id -/

theorem countFor_eq_zero_iff (db : DB) (aid : String) :
    countFor db aid = 0 ↔ findByAnonymousId db aid = none := by
  unfold countFor findByAnonymousId
  rw [List.length_eq_zero, List.filter_eq_nil_iff, List.find?_eq_none]

theorem countFor_trackSession_found {db : DB} {aid : String} {now : Int} {s : Session}
    (hs : findByAnonymousId db aid = some s) (a : String) :
    countFor (trackSession db aid now).1 a = countFor db a := by
  unfold trackSession
  rw [hs]
  unfold countFor patchLastActive
  simp only
  rw [filter_map_pres (fun x => patchLastActive_pres_aid s.id now a x), List.length_map]

theorem countFor_trackSession_none {db : DB} {aid : String} {now : Int}
    (hs : findByAnonymousId db aid = none) (a : String) :
    countFor (trackSession db aid now).1 a
      = countFor db a + (if aid == a then 1 else 0) := by
  unfold trackSession
  rw [hs]
  unfold countFor
  simp only [List.filter_append, List.length_append]
  cases h : (aid == a) <;> simp [List.filter, h]

/-! ### Claim C4: upsert behaviour of `trackSession` -/

/-- C4: for every `anonymousId`, `trackSession` at time `now` either finds the
existing session, patches only its `lastActive` to `now` and returns that
session's id without adding a row, or, when no session exists, inserts a new
session with `createdAt = lastActive = now` and empty `actions` and returns
its fresh id. -/
theorem trackSession_upsert_spec (db : DB) (aid : String) (now : Int) :
    (∀ s, findByAnonymousId db aid = some s →
        (trackSession db aid now).2 = s.id ∧
        findByAnonymousId (trackSession db aid now).1 aid
          = some { s with lastActive := now } ∧
        (trackSession db aid now).1.sessions.length = db.sessions.length) ∧
    (findByAnonymousId db aid = none →
        (trackSession db aid now).1.sessions
          = db.sessions ++ [{ id := db.nextId, anonymousId := aid, createdAt := now,
                              lastActive := now, actions := [] }] ∧
        (trackSession db aid now).2 = db.nextId ∧
        findByAnonymousId (trackSession db aid now).1 aid
          = some { id := db.nextId, anonymousId := aid, createdAt := now,
                   lastActive := now, actions := [] }) := by
  constructor
  · intro s hs
    unfold trackSession
    rw [hs]
    refine ⟨rfl, ?_, ?_⟩
    · have hfind : db.sessions.find? (fun t => t.anonymousId == aid) = some s := hs
      unfold findByAnonymousId
      rw [findByAnonymousId_patchLastActive, hfind, Option.map_some']
      simp
    · unfold patchLastActive
      simp
  · intro hn
    unfold trackSession
    rw [hn]
    refine ⟨rfl, rfl, ?_⟩
    unfold findByAnonymousId at hn ⊢
    simp [List.find?_append, hn, List.find?]

/-- Witness for C4: both branches exercised on concrete states. -/
theorem trackSession_upsert_spec_witness :
    (findByAnonymousId
        { sessions := [{ id := 0, anonymousId := "a", createdAt := 0, lastActive := 0,
                         actions := [] }], nextId := 1 } "a"
      = some { id := 0, anonymousId := "a", createdAt := 0, lastActive := 0,
               actions := [] }) ∧
    (trackSession
        { sessions := [{ id := 0, anonymousId := "a", createdAt := 0, lastActive := 0,
                         actions := [] }], nextId := 1 } "a" 5).2 = 0 ∧
    (findByAnonymousId { sessions := ([] : List Session), nextId := 0 } "b" = none) ∧
    (trackSession { sessions := ([] : List Session), nextId := 0 } "b" 7).2 = 0 :=
  ⟨by decide,
   ((trackSession_upsert_spec
      { sessions := [{ id := 0, anonymousId := "a", createdAt := 0, lastActive := 0,
                       actions := [] }], nextId := 1 } "a" 5).1
      { id := 0, anonymousId := "a", createdAt := 0, lastActive := 0, actions := [] }
      (by decide)).1,
   by decide,
   ((trackSession_upsert_spec { sessions := ([] : List Session), nextId := 0 } "b" 7).2
      (by decide)).2.1⟩

/-! ### Claim C1: at most one session per anonymous id -/

/-- C1: `trackSession` preserves the invariant that at most one session row
exists per `anonymousId`, and two upserts for the same not-yet-existing
`anonymousId` (serialized by Convex's transactional execution of mutations)
leave exactly one session row for that id, never two. -/
theorem trackSession_at_most_one (db : DB) (aid : String) (now t2 : Int) :
    ((∀ a, countFor db a ≤ 1) → ∀ a, countFor (trackSession db aid now).1 a ≤ 1) ∧
    (countFor db aid = 0 →
      countFor (trackSession (trackSession db aid now).1 aid t2).1 aid = 1) := by
  constructor
  · intro h a
    cases hf : findByAnonymousId db aid with
    | some s =>
        rw [countFor_trackSession_found hf]
        exact h a
    | none =>
        rw [countFor_trackSession_none hf]
        cases heq : (aid == a) with
        | false => simpa using h a
        | true =>
            have ha : aid = a := eq_of_beq heq
            subst ha
            have h0 : countFor db aid = 0 := (countFor_eq_zero_iff db aid).2 hf
            simp [h0]
  · intro h0
    have hf : findByAnonymousId db aid = none := (countFor_eq_zero_iff db aid).1 h0
    have h1 : countFor (trackSession db aid now).1 aid = 1 := by
      rw [countFor_trackSession_none hf]
      simp [h0]
    cases hf2 : findByAnonymousId (trackSession db aid now).1 aid with
    | none =>
        exfalso
        have := (countFor_eq_zero_iff _ aid).2 hf2
        omega
    | some s =>
        rw [countFor_trackSession_found hf2]
        exact h1

/-- Witness for C1: from the empty table, two upserts for `"a"` leave exactly
one row. -/
theorem trackSession_at_most_one_witness :
    (∀ a, countFor { sessions := ([] : List Session), nextId := 0 } a ≤ 1) ∧
    countFor { sessions := ([] : List Session), nextId := 0 } "a" = 0 ∧
    countFor
      (trackSession (trackSession { sessions := ([] : List Session), nextId := 0 }
        "a" 1).1 "a" 2).1 "a" = 1 :=
  ⟨fun a => by simp [countFor],
   by decide,
   (trackSession_at_most_one { sessions := ([] : List Session), nextId := 0 }
      "a" 1 2).2 (by decide)⟩

/-! ### Claim C2: the active-session window is boundary-exclusive -/

/-- C2 counterexample: a session whose `lastActive` equals
`now - w * 60000` exactly (here `0 = 60000 - 1 * 60000`) is stored but NOT
returned by `getActiveSessions`, because the source filters with
`q.gt(q.field('lastActive'), cutoff)`, which is strict. -/
theorem getActiveSessions_boundary_excluded_cex :
    ({ id := 0, anonymousId := "a", createdAt := 0, lastActive := 0,
       actions := [] } : Session).lastActive = 60000 - 1 * 60000 ∧
    ({ id := 0, anonymousId := "a", createdAt := 0, lastActive := 0,
       actions := [] } : Session) ∈
      ({ sessions := [{ id := 0, anonymousId := "a", createdAt := 0, lastActive := 0,
                        actions := [] }], nextId := 1 } : DB).sessions ∧
    ({ id := 0, anonymousId := "a", createdAt := 0, lastActive := 0,
       actions := [] } : Session) ∉
      getActiveSessions
        { sessions := [{ id := 0, anonymousId := "a", createdAt := 0, lastActive := 0,
                         actions := [] }], nextId := 1 } (some 1) 60000 := by
  decide

/-- C2 amended: for every window `w` and time `now`, `getActiveSessions`
returns exactly the sessions with `lastActive > now - w * 60000` (strictly);
a session whose `lastActive` equals the boundary `now - w * 60000` is
excluded from the result. -/
theorem getActiveSessions_window_strict (db : DB) (w now : Int) :
    (∀ s, s ∈ getActiveSessions db (some w) now ↔
        s ∈ db.sessions ∧ now - w * 60000 < s.lastActive) ∧
    (∀ s ∈ db.sessions, s.lastActive = now - w * 60000 →
        s ∉ getActiveSessions db (some w) now) := by
  have hchar : ∀ s, s ∈ getActiveSessions db (some w) now ↔
      s ∈ db.sessions ∧ now - w * 60000 < s.lastActive := by
    intro s
    simp only [getActiveSessions, Option.getD_some, List.mem_filter, decide_eq_true_eq]
    constructor
    · rintro ⟨h1, h2⟩
      refine ⟨h1, ?_⟩
      omega
    · rintro ⟨h1, h2⟩
      refine ⟨h1, ?_⟩
      omega
  refine ⟨hchar, ?_⟩
  intro s _ heq hin
  have := ((hchar s).1 hin).2
  omega

/-- Witness for C2 amended: a strictly-inside session is returned, and a
boundary session is rejected through the theorem. -/
theorem getActiveSessions_window_strict_witness :
    ({ id := 0, anonymousId := "a", createdAt := 0, lastActive := 1,
       actions := [] } : Session) ∈
      getActiveSessions
        { sessions := [{ id := 0, anonymousId := "a", createdAt := 0, lastActive := 1,
                         actions := [] }], nextId := 1 } (some 1) 60000 ∧
    ({ id := 1, anonymousId := "b", createdAt := 0, lastActive := 0,
       actions := [] } : Session) ∉
      getActiveSessions
        { sessions := [{ id := 1, anonymousId := "b", createdAt := 0, lastActive := 0,
                         actions := [] }], nextId := 2 } (some 1) 60000 :=
  ⟨((getActiveSessions_window_strict
      { sessions := [{ id := 0, anonymousId := "a", createdAt := 0, lastActive := 1,
                       actions := [] }], nextId := 1 } 1 60000).1 _).2 (by decide),
   (getActiveSessions_window_strict
      { sessions := [{ id := 1, anonymousId := "b", createdAt := 0, lastActive := 0,
                       actions := [] }], nextId := 2 } 1 60000).2 _ (by decide) (by decide)⟩

/-! ### Claim C3: `trackUserAction` -/

theorem trackUserActionState_found {db : DB} {aid : String} {s : Session}
    (hs : findByAnonymousId db aid = some s) (act : String) (rid : Option String)
    (md : Option Metadata) (now : Int) :
    findByAnonymousId (trackUserActionState db aid act rid md now) aid
      = some (appendedSession s act rid md now) := by
  unfold trackUserActionState trackUserAction
  rw [hs]
  have hfind : db.sessions.find? (fun t => t.anonymousId == aid) = some s := hs
  unfold findByAnonymousId
  simp only
  rw [findByAnonymousId_patchAppendAction, hfind, Option.map_some']
  simp [appendedSession, mkAction]

theorem runActions_found {aid : String} :
    ∀ (calls : List (String × Int)) (db : DB) (s : Session),
      findByAnonymousId db aid = some s →
      ∃ s2, findByAnonymousId (runActions db aid calls) aid = some s2 ∧
        s2.createdAt = s.createdAt ∧
        s2.actions = s.actions ++ calls.map (fun c => mkAction c.1 none none c.2)
  | [], _, s, hs => ⟨s, hs, rfl, by simp [runActions]⟩
  | c :: rest, db, s, hs => by
      have h1 := trackUserActionState_found hs c.1 none none c.2
      obtain ⟨s2, h2, hc, ha⟩ := runActions_found rest _ _ h1
      refine ⟨s2, ?_, ?_, ?_⟩
      · simpa [runActions] using h2
      · simpa [appendedSession] using hc
      · rw [ha]
        simp [appendedSession]

/-- C3: `trackUserAction` fails with the `Session not found` error exactly
when no session exists for the `anonymousId`; the failing mutation rolls
back, leaving the table unchanged (no session created); on success it
appends `{action, timestamp: now, resourceId, metadata}` to the end of the
session's `actions` (keeping all prior entries in order) and sets
`lastActive = now`, so `N` successful calls append exactly `N` entries in
call order. -/
theorem trackUserAction_spec (db : DB) (aid act : String) (rid : Option String)
    (md : Option Metadata) (now : Int) :
    ((trackUserAction db aid act rid md now = Except.error "Session not found") ↔
        findByAnonymousId db aid = none) ∧
    (findByAnonymousId db aid = none →
        trackUserActionState db aid act rid md now = db) ∧
    (∀ s, findByAnonymousId db aid = some s →
        findByAnonymousId (trackUserActionState db aid act rid md now) aid
          = some (appendedSession s act rid md now)) ∧
    (∀ s calls, findByAnonymousId db aid = some s →
        ∃ s2, findByAnonymousId (runActions db aid calls) aid = some s2 ∧
          s2.createdAt = s.createdAt ∧
          s2.actions = s.actions ++ calls.map (fun c => mkAction c.1 none none c.2)) := by
  refine ⟨?_, ?_, ?_, ?_⟩
  · cases hf : findByAnonymousId db aid with
    | none => simp [trackUserAction, hf]
    | some s => simp [trackUserAction, hf]
  · intro hf
    simp [trackUserActionState, trackUserAction, hf]
  · intro s hs
    exact trackUserActionState_found hs act rid md now
  · intro s calls hs
    exact runActions_found calls db s hs

/-- Witness for C3: the missing-session call fails and leaves the empty
table unchanged; on a one-session table a call appends its entry. -/
theorem trackUserAction_spec_witness :
    (findByAnonymousId { sessions := ([] : List Session), nextId := 0 } "a" = none) ∧
    trackUserActionState { sessions := ([] : List Session), nextId := 0 }
      "a" "click" none none 5 = { sessions := ([] : List Session), nextId := 0 } ∧
    (findByAnonymousId
        { sessions := [{ id := 0, anonymousId := "b", createdAt := 0, lastActive := 0,
                         actions := [] }], nextId := 1 } "b"
      = some { id := 0, anonymousId := "b", createdAt := 0, lastActive := 0,
               actions := [] }) ∧
    findByAnonymousId
        (trackUserActionState
          { sessions := [{ id := 0, anonymousId := "b", createdAt := 0, lastActive := 0,
                           actions := [] }], nextId := 1 } "b" "click" none none 7) "b"
      = some (appendedSession
          { id := 0, anonymousId := "b", createdAt := 0, lastActive := 0, actions := [] }
          "click" none none 7) :=
  ⟨by decide,
   (trackUserAction_spec { sessions := ([] : List Session), nextId := 0 }
      "a" "click" none none 5).2.1 (by decide),
   by decide,
   (trackUserAction_spec
      { sessions := [{ id := 0, anonymousId := "b", createdAt := 0, lastActive := 0,
                       actions := [] }], nextId := 1 } "b" "click" none none 7).2.2.1
      { id := 0, anonymousId := "b", createdAt := 0, lastActive := 0, actions := [] }
      (by decide)⟩

/-! ### Lemmas about eviction -/

theorem foldl_deleteSession (old : List Session) :
    ∀ l : List Session, old.foldl (fun acc s => deleteSession acc s.id) l
      = l.filter (fun t => old.all (fun s => t.id != s.id)) := by
  induction old with
  | nil =>
      intro l
      simp [deleteSession]
  | cons s rest ih =>
      intro l
      simp only [List.foldl_cons]
      rw [ih (deleteSession l s.id)]
      unfold deleteSession
      rw [List.filter_filter]
      refine List.filter_congr ?_
      intro t _
      simp only [List.all_cons]
      exact Bool.and_comm _ _

theorem mem_foldl_deleteSession {old l : List Session} {t : Session} :
    t ∈ old.foldl (fun acc s => deleteSession acc s.id) l ↔
      (t ∈ l ∧ ∀ s ∈ old, t.id ≠ s.id) := by
  rw [foldl_deleteSession]
  simp [List.mem_filter, List.all_eq_true]

theorem cleanup_sessions_eq_filter {db : DB}
    (hnd : (db.sessions.map (fun s => s.id)).Nodup) (dOpt : Option Int) (now : Int) :
    (cleanupSessionsHandler db dOpt now).1.sessions
      = db.sessions.filter
          (fun s => !(decide
            (s.lastActive < now - (dOpt.getD 30) * 24 * 60 * 60 * 1000))) := by
  simp only [cleanupSessionsHandler]
  rw [foldl_deleteSession]
  refine List.filter_congr ?_
  intro t ht
  cases hpt : decide (t.lastActive < now - (dOpt.getD 30) * 24 * 60 * 60 * 1000) with
  | true =>
      have hnot : ¬ ((db.sessions.filter
          (fun s => decide (s.lastActive < now - (dOpt.getD 30) * 24 * 60 * 60 * 1000))).all
            (fun s => t.id != s.id) = true) := by
        intro hall
        have := List.all_eq_true.1 hall t (List.mem_filter.2 ⟨ht, hpt⟩)
        simp at this
      cases hall : (db.sessions.filter
          (fun s => decide (s.lastActive < now - (dOpt.getD 30) * 24 * 60 * 60 * 1000))).all
            (fun s => t.id != s.id) with
      | true => exact absurd hall hnot
      | false => simp
  | false =>
      simp only [Bool.not_false]
      refine List.all_eq_true.2 ?_
      intro s hsmem
      have hs := List.mem_filter.1 hsmem
      refine bne_iff_ne.2 ?_
      intro hid
      have heq : t = s := List.inj_on_of_nodup_map hnd ht hs.1 hid
      rw [heq] at hpt
      rw [hs.2] at hpt
      cases hpt

/-! ### Claim C5: what eviction deletes and what it returns -/

/-- C5 counterexample: at `daysInactive = 0`, `now = 1`, one stored session
with `lastActive = 0` is deleted, but the returned object carries the cutoff
under the key `oldestDate`; it has NO `cutoffTimestamp` key, refuting the
claimed return shape of a `deletedCount` paired with a `cutoffTimestamp`. -/
theorem cleanup_result_field_cex :
    ((cleanupResultObj
        (cleanupSessionsHandler
          { sessions := [{ id := 0, anonymousId := "a", createdAt := 0, lastActive := 0,
                           actions := [] }], nextId := 1 } (some 0) 1).2).lookup
        "cutoffTimestamp" = none) ∧
    ((cleanupResultObj
        (cleanupSessionsHandler
          { sessions := [{ id := 0, anonymousId := "a", createdAt := 0, lastActive := 0,
                           actions := [] }], nextId := 1 } (some 0) 1).2).lookup
        "deletedCount" = some 1) ∧
    ((cleanupResultObj
        (cleanupSessionsHandler
          { sessions := [{ id := 0, anonymousId := "a", createdAt := 0, lastActive := 0,
                           actions := [] }], nextId := 1 } (some 0) 1).2).lookup
        "oldestDate" = some 1) := by
  decide

/-- C5 amended: for every `daysInactive` `d` and time `now`,
`cleanupSessionsHandler` computes `cutoff = now - d * 86400000`, deletes
exactly the sessions with `lastActive < cutoff` (strictly less), and returns
the number of sessions actually deleted together with the cutoff used — but
as an object keyed `deletedCount` and `oldestDate`: the cutoff field is
named `oldestDate`, not `cutoffTimestamp`. -/
theorem cleanup_evict_spec (db : DB) (d now : Int)
    (hnd : (db.sessions.map (fun s => s.id)).Nodup) :
    (cleanupSessionsHandler db (some d) now).1.sessions
      = db.sessions.filter
          (fun s => !(decide (s.lastActive < now - d * 86400000))) ∧
    (cleanupSessionsHandler db (some d) now).2.deletedCount
      = (db.sessions.filter
          (fun s => decide (s.lastActive < now - d * 86400000))).length ∧
    cleanupResultObj (cleanupSessionsHandler db (some d) now).2
      = [("deletedCount",
          ((db.sessions.filter
            (fun s => decide (s.lastActive < now - d * 86400000))).length : Int)),
         ("oldestDate", now - d * 86400000)] := by
  have harith : now - d * 24 * 60 * 60 * 1000 = now - d * 86400000 := by ring
  refine ⟨?_, ?_, ?_⟩
  · rw [cleanup_sessions_eq_filter hnd (some d) now]
    simp only [Option.getD_some, harith]
  · simp only [cleanupSessionsHandler, Option.getD_some, harith]
  · simp only [cleanupResultObj, cleanupSessionsHandler, Option.getD_some, harith]

/-- Witness for C5 amended: one stale and one fresh session; the stale one
is deleted and counted, the fresh one kept. -/
theorem cleanup_evict_spec_witness :
    ((({ sessions := [{ id := 0, anonymousId := "a", createdAt := 0, lastActive := 0,
                        actions := [] },
                      { id := 1, anonymousId := "b", createdAt := 0, lastActive := 5,
                        actions := [] }], nextId := 2 } : DB).sessions.map
        (fun s => s.id)).Nodup) ∧
    (cleanupSessionsHandler
        { sessions := [{ id := 0, anonymousId := "a", createdAt := 0, lastActive := 0,
                         actions := [] },
                       { id := 1, anonymousId := "b", createdAt := 0, lastActive := 5,
                         actions := [] }], nextId := 2 } (some 0) 5).1.sessions
      = [{ id := 1, anonymousId := "b", createdAt := 0, lastActive := 5, actions := [] }] ∧
    (cleanupSessionsHandler
        { sessions := [{ id := 0, anonymousId := "a", createdAt := 0, lastActive := 0,
                         actions := [] },
                       { id := 1, anonymousId := "b", createdAt := 0, lastActive := 5,
                         actions := [] }], nextId := 2 } (some 0) 5).2.deletedCount = 1 :=
  ⟨by decide,
   by
    rw [(cleanup_evict_spec
      { sessions := [{ id := 0, anonymousId := "a", createdAt := 0, lastActive := 0,
                       actions := [] },
                     { id := 1, anonymousId := "b", createdAt := 0, lastActive := 5,
                       actions := [] }], nextId := 2 } 0 5 (by decide)).1]
    decide,
   by
    rw [(cleanup_evict_spec
      { sessions := [{ id := 0, anonymousId := "a", createdAt := 0, lastActive := 0,
                       actions := [] },
                     { id := 1, anonymousId := "b", createdAt := 0, lastActive := 5,
                       actions := [] }], nextId := 2 } 0 5 (by decide)).2.1]
    decide⟩

/-! ### Claim C6: `daysInactive = 0` at the boundary -/

/-- C6 counterexample: a single session with `lastActive = 1000`; calling
`cleanupOldSessions` with `daysInactive = 0` evaluated at `now = 1000` does
NOT delete it (the claim says `deletedCount = 1`): the cutoff is `1000` and
the strict comparison `1000 < 1000` fails, so `deletedCount = 0` and the
table is unchanged. -/
theorem cleanup_day0_cex :
    (cleanupSessionsHandler
        { sessions := [{ id := 0, anonymousId := "a", createdAt := 0, lastActive := 1000,
                         actions := [] }], nextId := 1 } (some 0) 1000).2.deletedCount = 0 ∧
    (cleanupSessionsHandler
        { sessions := [{ id := 0, anonymousId := "a", createdAt := 0, lastActive := 1000,
                         actions := [] }], nextId := 1 } (some 0) 1000).1
      = { sessions := [{ id := 0, anonymousId := "a", createdAt := 0, lastActive := 1000,
                         actions := [] }], nextId := 1 } := by
  decide

/-- C6 amended: in the single-session scenario with `lastActive = T1`,
`cleanupOldSessions` with `daysInactive = 0` evaluated at `T1` computes
`cutoff = T1`, keeps the session (the deletion test `lastActive < cutoff` is
strict, so the boundary session survives) and returns `deletedCount = 0`. -/
theorem cleanup_day0_boundary (T1 : Int) (i : Nat) (aid : String) (ca : Int)
    (acts : List Action) (n : Nat) :
    cleanupSessionsHandler
        { sessions := [{ id := i, anonymousId := aid, createdAt := ca, lastActive := T1,
                         actions := acts }], nextId := n } (some 0) T1
      = ({ sessions := [{ id := i, anonymousId := aid, createdAt := ca, lastActive := T1,
                          actions := acts }], nextId := n },
         { deletedCount := 0, oldestDate := T1 }) := by
  simp [cleanupSessionsHandler, deleteSession, List.filter]

/-! ### Claim C8: idempotence of eviction -/

/-- C8 counterexample: one session with `lastActive = 5`; the first Evict
call (cutoff `3`) deletes nothing, and a second call with a LATER cutoff
(`10`) — with no session's `lastActive` changed in between — returns
`deletedCount = 1`, not `0` as claimed. -/
theorem cleanup_second_later_cutoff_cex :
    ((cleanupSessionsHandler
        { sessions := [{ id := 0, anonymousId := "a", createdAt := 0, lastActive := 5,
                         actions := [] }], nextId := 1 } (some 0) 3).2.oldestDate = 3) ∧
    ((cleanupSessionsHandler
        (cleanupSessionsHandler
          { sessions := [{ id := 0, anonymousId := "a", createdAt := 0, lastActive := 5,
                           actions := [] }], nextId := 1 } (some 0) 3).1
        (some 0) 10).2.oldestDate = 10) ∧
    ((cleanupSessionsHandler
        (cleanupSessionsHandler
          { sessions := [{ id := 0, anonymousId := "a", createdAt := 0, lastActive := 5,
                           actions := [] }], nextId := 1 } (some 0) 3).1
        (some 0) 10).2.deletedCount = 1) ∧ (1 : Nat) ≠ 0 := by
  decide

/-- C8 amended: Evict is idempotent for a repeated call whose cutoff is the
same (or earlier): if no session's `lastActive` changed in between, the
second call returns `deletedCount = 0`.  (With a strictly later cutoff the
second call can delete sessions that survived the first, as the
counterexample shows.) -/
theorem cleanup_idempotent_same_cutoff (db : DB) (d1 now1 d2 now2 : Int)
    (hc : now2 - d2 * 86400000 ≤ now1 - d1 * 86400000) :
    (cleanupSessionsHandler (cleanupSessionsHandler db (some d1) now1).1
        (some d2) now2).2.deletedCount = 0 := by
  have harith : ∀ dd nn : Int, nn - dd * 24 * 60 * 60 * 1000 = nn - dd * 86400000 := by
    intro dd nn
    ring
  simp only [cleanupSessionsHandler, Option.getD_some]
  rw [List.length_eq_zero, List.filter_eq_nil_iff]
  intro t ht
  rw [mem_foldl_deleteSession] at ht
  obtain ⟨htmem, hids⟩ := ht
  intro hp2
  have hlt2 : t.lastActive < now2 - d2 * 24 * 60 * 60 * 1000 := of_decide_eq_true hp2
  have hlt1 : t.lastActive < now1 - d1 * 24 * 60 * 60 * 1000 := by
    rw [harith] at hlt2 ⊢
    omega
  exact hids t (List.mem_filter.2 ⟨htmem, decide_eq_true hlt1⟩) rfl

/-- Witness for C8 amended: repeating the concrete first call of the
counterexample with the identical cutoff deletes nothing. -/
theorem cleanup_idempotent_same_cutoff_witness :
    ((3 : Int) - 0 * 86400000 ≤ 3 - 0 * 86400000) ∧
    (cleanupSessionsHandler
        (cleanupSessionsHandler
          { sessions := [{ id := 0, anonymousId := "a", createdAt := 0, lastActive := 5,
                           actions := [] }], nextId := 1 } (some 0) 3).1
        (some 0) 3).2.deletedCount = 0 :=
  ⟨by decide,
   cleanup_idempotent_same_cutoff
     { sessions := [{ id := 0, anonymousId := "a", createdAt := 0, lastActive := 5,
                      actions := [] }], nextId := 1 } 0 3 0 3 (by decide)⟩

/-! ### Claim C10: no validation of `daysInactive` -/

/-- C10: the cleanup performs no validation of `daysInactive`: for every
value `d`, including zero and negatives, it uses
`cutoff = now - d * 86400000` (a future timestamp when `d < 0`) and deletes
every stored session with `lastActive < cutoff`; in particular a negative
`daysInactive` deletes sessions that are currently active
(`lastActive ≤ now`). -/
theorem cleanup_no_validation (db : DB) (d now : Int) :
    (cleanupSessionsHandler db (some d) now).2.oldestDate = now - d * 86400000 ∧
    (∀ s ∈ db.sessions, s.lastActive < now - d * 86400000 →
        s ∉ (cleanupSessionsHandler db (some d) now).1.sessions) ∧
    (d < 0 → ∀ s ∈ db.sessions, s.lastActive ≤ now →
        s ∉ (cleanupSessionsHandler db (some d) now).1.sessions) := by
  have harith : now - d * 24 * 60 * 60 * 1000 = now - d * 86400000 := by ring
  have hdel : ∀ s ∈ db.sessions, s.lastActive < now - d * 86400000 →
      s ∉ (cleanupSessionsHandler db (some d) now).1.sessions := by
    intro s hs hlt hmem
    simp only [cleanupSessionsHandler, Option.getD_some] at hmem
    rw [mem_foldl_deleteSession] at hmem
    obtain ⟨_, hids⟩ := hmem
    refine hids s (List.mem_filter.2 ⟨hs, decide_eq_true ?_⟩) rfl
    rw [harith]
    exact hlt
  refine ⟨?_, hdel, ?_⟩
  · simp only [cleanupSessionsHandler, Option.getD_some]
    exact harith
  · intro hd s hs hle
    refine hdel s hs ?_
    omega

/-- Witness for C10: `daysInactive = -1` at `now = 0` deletes a session that
is active right now (`lastActive = 0`). -/
theorem cleanup_no_validation_witness :
    ((-1 : Int) < 0) ∧
    ({ id := 0, anonymousId := "a", createdAt := 0, lastActive := 0,
       actions := [] } : Session) ∈
      ({ sessions := [{ id := 0, anonymousId := "a", createdAt := 0, lastActive := 0,
                        actions := [] }], nextId := 1 } : DB).sessions ∧
    (({ id := 0, anonymousId := "a", createdAt := 0, lastActive := 0,
        actions := [] } : Session).lastActive ≤ (0 : Int)) ∧
    ({ id := 0, anonymousId := "a", createdAt := 0, lastActive := 0,
       actions := [] } : Session) ∉
      (cleanupSessionsHandler
        { sessions := [{ id := 0, anonymousId := "a", createdAt := 0, lastActive := 0,
                         actions := [] }], nextId := 1 } (some (-1)) 0).1.sessions :=
  ⟨by decide, by decide, by decide,
   (cleanup_no_validation
      { sessions := [{ id := 0, anonymousId := "a", createdAt := 0, lastActive := 0,
                       actions := [] }], nextId := 1 } (-1) 0).2.2 (by decide)
      { id := 0, anonymousId := "a", createdAt := 0, lastActive := 0, actions := [] }
      (by decide) (by decide)⟩

/-! ### Claim C9: client-side identity issuance -/

theorem getItem_setItem (st : List (String × String)) (k v : String) :
    getItem (setItem st k v) k = some v := by
  unfold setItem
  cases hf : (st.find? (fun p => p.1 == k)).isSome with
  | false =>
      simp only [hf, if_false, Bool.false_eq_true]
      have hnone : st.find? (fun p => p.1 == k) = none := by
        cases h2 : st.find? (fun p => p.1 == k) with
        | none => rfl
        | some p0 => rw [h2] at hf; simp at hf
      unfold getItem
      rw [List.find?_append, hnone]
      simp [List.find?]
  | true =>
      simp only [hf, if_true]
      have hpres : ∀ x : String × String,
          ((if x.1 == k then (k, v) else x).1 == k) = (x.1 == k) := by
        intro x
        cases hx : x.1 == k <;> simp [hx]
      unfold getItem
      rw [find?_map_pres hpres st]
      cases h2 : st.find? (fun p => p.1 == k) with
      | none => rw [h2] at hf; simp at hf
      | some p0 =>
          have hp0 : (p0.1 == k) = true := by simpa using List.find?_some h2
          simp [hp0, eq_of_beq hp0]

theorem useSessionTrackerInit_nonbrowser (c : ClientCtx) (key fresh : String)
    (h : c.isBrowser = false) : useSessionTrackerInit c key fresh = (none, c) := by
  simp [useSessionTrackerInit, h]

theorem useSessionTrackerInit_stored (c : ClientCtx) (key v fresh : String)
    (hb : c.isBrowser = true) (hv : getItem c.storage key = some v) (hne : v ≠ "") :
    useSessionTrackerInit c key fresh = (some v, c) := by
  unfold useSessionTrackerInit
  rw [hb, hv]
  simp [jsTruthy, hne]
  rw [← hb]

theorem useSessionTrackerInit_fresh (c : ClientCtx) (key fresh : String)
    (hb : c.isBrowser = true)
    (h : getItem c.storage key = none ∨ getItem c.storage key = some "") :
    useSessionTrackerInit c key fresh
      = (some fresh, { c with storage := setItem c.storage key fresh }) := by
  unfold useSessionTrackerInit
  cases h with
  | inl h0 =>
      rw [hb, h0]
      simp [jsTruthy]
  | inr h0 =>
      rw [hb, h0]
      simp [jsTruthy]

/-- C9 counterexample: with the EMPTY string stored under the storage key in
a browser context, the hook does not return the stored value unchanged:
JavaScript truthiness (`storedId || uuidv4()`) treats `""` as absent, so a
fresh id is returned and the stored value is overwritten. -/
theorem useSessionTracker_empty_string_cex :
    useSessionTrackerInit { isBrowser := true, storage := [("anonymousUserId", "")] }
        "anonymousUserId" "fresh-id"
      = (some "fresh-id",
         { isBrowser := true, storage := [("anonymousUserId", "fresh-id")] }) ∧
    (some "fresh-id" : Option String) ≠ some "" ∧
    ([("anonymousUserId", "fresh-id")] : List (String × String))
      ≠ [("anonymousUserId", "")] := by
  decide

/-- C9 amended: in a non-browser context the hook returns no identifier
(`none`) without touching storage; in a browser context, a stored NON-EMPTY
value is returned unchanged without writing; when nothing is stored — or the
stored value is the empty string, which JavaScript truthiness treats as
absent — the fresh identifier is persisted under the key and returned; and
repeated calls against the same storage return the same identifier. -/
theorem useSessionTracker_identity_spec (ctx : ClientCtx) (key fresh fresh2 : String) :
    (ctx.isBrowser = false → useSessionTrackerInit ctx key fresh = (none, ctx)) ∧
    (∀ v, ctx.isBrowser = true → getItem ctx.storage key = some v → v ≠ "" →
        useSessionTrackerInit ctx key fresh = (some v, ctx)) ∧
    (ctx.isBrowser = true →
      (getItem ctx.storage key = none ∨ getItem ctx.storage key = some "") →
        useSessionTrackerInit ctx key fresh
          = (some fresh, { ctx with storage := setItem ctx.storage key fresh }) ∧
        getItem (setItem ctx.storage key fresh) key = some fresh) ∧
    (ctx.isBrowser = true → fresh ≠ "" →
        (useSessionTrackerInit (useSessionTrackerInit ctx key fresh).2 key fresh2).1
          = (useSessionTrackerInit ctx key fresh).1) := by
  refine ⟨?_, ?_, ?_, ?_⟩
  · intro h
    exact useSessionTrackerInit_nonbrowser ctx key fresh h
  · intro v hb hv hne
    exact useSessionTrackerInit_stored ctx key v fresh hb hv hne
  · intro hb hcase
    exact ⟨useSessionTrackerInit_fresh ctx key fresh hb hcase,
           getItem_setItem ctx.storage key fresh⟩
  · intro hb hf
    cases hv : getItem ctx.storage key with
    | none =>
        rw [useSessionTrackerInit_fresh ctx key fresh hb (Or.inl hv)]
        dsimp only
        rw [useSessionTrackerInit_stored
          { ctx with storage := setItem ctx.storage key fresh } key fresh fresh2 hb
          (getItem_setItem ctx.storage key fresh) hf]
    | some v =>
        by_cases hne : v = ""
        · subst hne
          rw [useSessionTrackerInit_fresh ctx key fresh hb (Or.inr hv)]
          dsimp only
          rw [useSessionTrackerInit_stored
            { ctx with storage := setItem ctx.storage key fresh } key fresh fresh2 hb
            (getItem_setItem ctx.storage key fresh) hf]
        · rw [useSessionTrackerInit_stored ctx key v fresh hb hv hne]
          rw [useSessionTrackerInit_stored ctx key v fresh2 hb hv hne]

/-- Witness for C9 amended: a stored non-empty id is returned unchanged. -/
theorem useSessionTracker_identity_spec_witness :
    (({ isBrowser := true,
        storage := [("anonymousUserId", "xyz")] } : ClientCtx).isBrowser = true) ∧
    getItem [("anonymousUserId", "xyz")] "anonymousUserId" = some "xyz" ∧
    ("xyz" : String) ≠ "" ∧
    useSessionTrackerInit { isBrowser := true, storage := [("anonymousUserId", "xyz")] }
        "anonymousUserId" "f"
      = (some "xyz", { isBrowser := true, storage := [("anonymousUserId", "xyz")] }) :=
  ⟨rfl, by decide, by decide,
   (useSessionTracker_identity_spec
      { isBrowser := true, storage := [("anonymousUserId", "xyz")] }
      "anonymousUserId" "f" "g").2.1 "xyz" rfl (by decide) (by decide)⟩

/-! ### Claim C7: timestamp invariants along mutation traces -/

theorem map_id_of_pres {f : Session → Session} (h : ∀ x, (f x).id = x.id)
    (l : List Session) : (l.map f).map (fun s => s.id) = l.map (fun s => s.id) := by
  rw [List.map_map]
  refine List.map_congr_left ?_
  intro x _
  exact h x

theorem patchLastActive_id (i : Nat) (now : Int) (x : Session) :
    (if x.id == i then { x with lastActive := now } else x).id = x.id := by
  cases h : x.id == i <;> simp [h]

theorem patchAppendAction_id (i : Nat) (e : Action) (now : Int) (x : Session) :
    (if x.id == i then { x with lastActive := now, actions := x.actions ++ [e] }
     else x).id = x.id := by
  cases h : x.id == i <;> simp [h]

theorem WF_map_pres {db : DB} (h : db.WF) {f : Session → Session}
    (hid : ∀ x, (f x).id = x.id) :
    DB.WF { db with sessions := db.sessions.map f } := by
  obtain ⟨hnd, hbound⟩ := h
  constructor
  · rw [map_id_of_pres hid]
    exact hnd
  · intro s hs
    rw [List.mem_map] at hs
    obtain ⟨x, hx, rfl⟩ := hs
    rw [hid x]
    exact hbound x hx

theorem WF_stepOp {db : DB} (h : db.WF) (op : Op) (t : Int) : (stepOp db op t).WF := by
  cases op with
  | upsert aid =>
      cases hf : findByAnonymousId db aid with
      | some e =>
          simp only [stepOp, trackSession, hf]
          exact WF_map_pres h (patchLastActive_id e.id t)
      | none =>
          obtain ⟨hnd, hbound⟩ := h
          simp only [stepOp, trackSession, hf]
          constructor
          · rw [List.map_append]
            rw [List.nodup_append]
            refine ⟨hnd, by simp, ?_⟩
            intro a ha hb
            simp only [List.map_cons, List.map_nil, List.mem_singleton] at hb
            subst hb
            rw [List.mem_map] at ha
            obtain ⟨x, hx, hxe⟩ := ha
            have := hbound x hx
            omega
          · intro s hs
            dsimp only at hs ⊢
            rw [List.mem_append] at hs
            cases hs with
            | inl h1 =>
                have := hbound s h1
                omega
            | inr h1 =>
                rw [List.mem_singleton] at h1
                subst h1
                dsimp only
                omega
  | append aid act rid md =>
      cases hf : findByAnonymousId db aid with
      | none =>
          simp only [stepOp, trackUserActionState, trackUserAction, hf]
          exact h
      | some e =>
          simp only [stepOp, trackUserActionState, trackUserAction, hf]
          exact WF_map_pres h (patchAppendAction_id e.id (mkAction act rid md t) t)

theorem Bounded_stepOp {db : DB} {t0 t : Int} (hb : Bounded db t0) (hle : t0 ≤ t)
    (op : Op) : Bounded (stepOp db op t) t := by
  cases op with
  | upsert aid =>
      cases hf : findByAnonymousId db aid with
      | some e =>
          intro s hs
          simp only [stepOp, trackSession, hf, patchLastActive] at hs
          rw [List.mem_map] at hs
          obtain ⟨x, hx, rfl⟩ := hs
          obtain ⟨hc, hl⟩ := hb x hx
          cases hid : x.id == e.id <;> simp [hid] <;> omega
      | none =>
          intro s hs
          simp only [stepOp, trackSession, hf] at hs
          rw [List.mem_append] at hs
          cases hs with
          | inl h1 =>
              obtain ⟨hc, hl⟩ := hb s h1
              exact ⟨hc, le_trans hl hle⟩
          | inr h1 =>
              rw [List.mem_singleton] at h1
              subst h1
              exact ⟨le_refl t, le_refl t⟩
  | append aid act rid md =>
      cases hf : findByAnonymousId db aid with
      | none =>
          intro s hs
          simp only [stepOp, trackUserActionState, trackUserAction, hf] at hs
          obtain ⟨hc, hl⟩ := hb s hs
          exact ⟨hc, le_trans hl hle⟩
      | some e =>
          intro s hs
          simp only [stepOp, trackUserActionState, trackUserAction,
            hf, patchAppendAction] at hs
          rw [List.mem_map] at hs
          obtain ⟨x, hx, rfl⟩ := hs
          obtain ⟨hc, hl⟩ := hb x hx
          cases hid : x.id == e.id <;> simp [hid] <;> omega

theorem stepOp_mono {db : DB} {t0 t : Int} (hb : Bounded db t0) (hle : t0 ≤ t)
    (op : Op) : ∀ s1 ∈ db.sessions, ∃ s2 ∈ (stepOp db op t).sessions,
      s2.id = s1.id ∧ s2.createdAt = s1.createdAt ∧ s1.lastActive ≤ s2.lastActive := by
  intro s1 h1
  cases op with
  | upsert aid =>
      cases hf : findByAnonymousId db aid with
      | some e =>
          refine ⟨if s1.id == e.id then { s1 with lastActive := t } else s1, ?_, ?_, ?_, ?_⟩
          · simp only [stepOp, trackSession, hf, patchLastActive]
            exact List.mem_map_of_mem _ h1
          · exact patchLastActive_id e.id t s1
          · cases hid : s1.id == e.id <;> simp [hid]
          · obtain ⟨_, hl⟩ := hb s1 h1
            cases hid : s1.id == e.id <;> simp [hid] <;> omega
      | none =>
          refine ⟨s1, ?_, rfl, rfl, le_refl _⟩
          simp only [stepOp, trackSession, hf]
          exact List.mem_append_left _ h1
  | append aid act rid md =>
      cases hf : findByAnonymousId db aid with
      | none =>
          refine ⟨s1, ?_, rfl, rfl, le_refl _⟩
          simp only [stepOp, trackUserActionState, trackUserAction, hf]
          exact h1
      | some e =>
          refine ⟨if s1.id == e.id then appendedSession s1 act rid md t else s1,
            ?_, ?_, ?_, ?_⟩
          · simp only [stepOp, trackUserActionState, trackUserAction,
              hf, patchAppendAction]
            exact List.mem_map_of_mem _ h1
          · exact patchAppendAction_id e.id (mkAction act rid md t) t s1
          · cases hid : s1.id == e.id <;> simp [hid, appendedSession]
          · obtain ⟨_, hl⟩ := hb s1 h1
            cases hid : s1.id == e.id <;> simp [hid, appendedSession] <;> omega

theorem runTrace_invariants_aux :
    ∀ (tr : List (Op × Int)) (db : DB) (t0 : Int),
      db.WF → Bounded db t0 → timesOK t0 tr →
      (runTrace db tr).WF ∧ Bounded (runTrace db tr) (endTime t0 tr) ∧
      ∀ s1 ∈ db.sessions, ∃ s2 ∈ (runTrace db tr).sessions,
        s2.id = s1.id ∧ s2.createdAt = s1.createdAt ∧ s1.lastActive ≤ s2.lastActive
  | [], _, _, hwf, hb, _ => ⟨hwf, hb, fun s1 h1 => ⟨s1, h1, rfl, rfl, le_refl _⟩⟩
  | p :: rest, db, t0, hwf, hb, ht => by
      obtain ⟨hle, htrest⟩ := ht
      have hwf1 := WF_stepOp hwf p.1 p.2
      have hb1 := Bounded_stepOp hb hle p.1
      obtain ⟨hwf2, hb2, hmono2⟩ :=
        runTrace_invariants_aux rest (stepOp db p.1 p.2) p.2 hwf1 hb1 htrest
      refine ⟨?_, ?_, ?_⟩
      · simpa [runTrace] using hwf2
      · simpa [runTrace, endTime] using hb2
      · intro s1 h1
        obtain ⟨s2, h2, hid, hc, hl⟩ := stepOp_mono hb hle p.1 s1 h1
        obtain ⟨s3, h3, hid3, hc3, hl3⟩ := hmono2 s2 h2
        refine ⟨s3, ?_, ?_, ?_, ?_⟩
        · simpa [runTrace] using h3
        · rw [hid3, hid]
        · rw [hc3, hc]
        · exact le_trans hl hl3

/-- C7: along any serialized sequence of Upsert (`trackSession`) and
AppendAction (`trackUserAction`) mutations executed at non-decreasing times
from a well-formed state whose sessions are bounded by the start time:
well-formedness is preserved, every reachable state keeps
`createdAt ≤ lastActive` for every session (with `lastActive` bounded by the
time of the last operation), and every session persists with its `createdAt`
unchanged — set once at creation, never modified — and its `lastActive`
never decreased. -/
theorem session_timestamp_invariants (db : DB) (t0 : Int) (tr : List (Op × Int))
    (hwf : db.WF) (hb : Bounded db t0) (ht : timesOK t0 tr) :
    (runTrace db tr).WF ∧ Bounded (runTrace db tr) (endTime t0 tr) ∧
    ∀ s1 ∈ db.sessions, ∃ s2 ∈ (runTrace db tr).sessions,
      s2.id = s1.id ∧ s2.createdAt = s1.createdAt ∧ s1.lastActive ≤ s2.lastActive :=
  runTrace_invariants_aux tr db t0 hwf hb ht

/-- Witness for C7: the empty table, then an upsert at time 1 and an action
at time 2; every reachable session satisfies the timestamp bounds. -/
theorem session_timestamp_invariants_witness :
    (({ sessions := ([] : List Session), nextId := 0 } : DB).WF) ∧
    Bounded { sessions := ([] : List Session), nextId := 0 } 0 ∧
    timesOK 0 [(Op.upsert "a", 1), (Op.append "a" "click" none none, 2)] ∧
    Bounded (runTrace { sessions := ([] : List Session), nextId := 0 }
      [(Op.upsert "a", 1), (Op.append "a" "click" none none, 2)]) 2 := by
  have hwf : ({ sessions := ([] : List Session), nextId := 0 } : DB).WF := by
    constructor
    · simp
    · simp
  have hb : Bounded { sessions := ([] : List Session), nextId := 0 } 0 := by
    intro s hs
    cases hs
  have ht : timesOK 0 [(Op.upsert "a", 1), (Op.append "a" "click" none none, 2)] := by
    refine ⟨by norm_num, by norm_num, trivial⟩
  exact ⟨hwf, hb, ht,
    (session_timestamp_invariants { sessions := ([] : List Session), nextId := 0 } 0
      [(Op.upsert "a", 1), (Op.append "a" "click" none none, 2)] hwf hb ht).2.1⟩

end SessionTracker
